import Mathlib

/-!
Shallow embedding of the berghain_challenge admission-control agent.

Each Lean definition below models one Python function or class of the
repository (files src/berghain/policy.py, window_policy.py, ewma_policy.py,
attr_ewma_policy.py, runner.py, utils.py).  Python dictionaries with a
default of 0 or False are modelled as total functions; dictionaries that
are iterated over (the constraint table, prior frequencies, correlation
rows) are modelled as association lists; Python ints are Int, floats are
Rat.  Mutation is modelled by explicit state passing: a decide method that
mutates estimator state becomes a function returning a pair of the decision
and the new state.
-/

namespace Berghain

/-- Attribute identifiers (type alias AttributeId = str in the source). -/
abbrev AttrId := String

/-- Attribute vector of one candidate: total map, absent keys read as False
exactly like the attributes.get(a, False) accesses in the source. -/
abbrev Cand := AttrId → Bool

/-- Remaining-needed value of one constraint entry (a, m) given the current
accepted counts: max(0, m - c), the loop body of every policy's
method named underscore-remaining-needed. -/
def remOf (counts : AttrId → Int) (p : AttrId × Int) : Int :=
  max 0 (p.2 - counts p.1)

/-- Per-attribute view of remaining_needed(): the entry the returned dict
holds at key a (0 for attributes outside the constraint table). -/
def remainingNeeded (minCounts : List (AttrId × Int)) (counts : AttrId → Int)
    (a : AttrId) : Int :=
  max 0 (((minCounts.lookup a).getD 0) - counts a)

/-- Helpful test shared by all four decide methods:
any(attributes.get(a, False) and remaining_needed.get(a, 0) > 0
for a in self.min_counts). -/
def isHelpful (minCounts : List (AttrId × Int)) (counts : AttrId → Int)
    (attrs : Cand) : Bool :=
  minCounts.any fun p => attrs p.1 && decide (0 < remOf counts p)

/-- S = sum(remaining_needed.values()). -/
def needSum (minCounts : List (AttrId × Int)) (counts : AttrId → Int) : Int :=
  (minCounts.map (remOf counts)).sum

/-- Count update performed by update_on_accept of every policy and by the
count-bump loop of the replay in resume_game: each attribute the candidate
carries gains one accepted count. -/
def updateCounts (counts : AttrId → Int) (attrs : Cand) : AttrId → Int :=
  fun a => counts a + (if attrs a then 1 else 0)

/-! ### QuotaReservePolicy (src/berghain/policy.py) -/

/-- State of QuotaReservePolicy: the constraint table, the capacity and the
accepted attribute counts. -/
structure QuotaState where
  minCounts : List (AttrId × Int)
  capacity : Int
  counts : AttrId → Int

/-- validate_param (src/berghain/utils.py) specialised to the call in
QuotaReservePolicy.__post_init__: capacity with min_val = 1,
min_exclusive = False; raises ValueError iff capacity < 1.
The result models construction: error on invalid capacity. -/
def mkQuotaReservePolicy (minCounts : List (AttrId × Int)) (capacity : Int) :
    Except String QuotaState :=
  if capacity < 1 then Except.error "capacity must be >= 1"
  else Except.ok ⟨minCounts, capacity, fun _ => 0⟩

/-- QuotaReservePolicy.update_on_accept. -/
def QuotaState.updateOnAccept (s : QuotaState) (attrs : Cand) : QuotaState :=
  { s with counts := updateCounts s.counts attrs }

/-- QuotaReservePolicy.decide: helpful candidates accepted; otherwise reject
iff S >= R where R = max(0, capacity - admitted_count). -/
def quotaDecide (s : QuotaState) (admitted : Int) (attrs : Cand) : Bool :=
  let R := max 0 (s.capacity - admitted)
  if isHelpful s.minCounts s.counts attrs then true
  else if needSum s.minCounts s.counts ≥ R then false
  else true

/-- QuotaReservePolicy.record_observation: a no-op (pass). -/
def quotaRecordObservation (s : QuotaState) (_helpful : Bool) : QuotaState := s

/-! ### WindowRelaxedPolicy (src/berghain/window_policy.py) -/

/-- State of WindowRelaxedPolicy.  The deque window_helpful is a list with
its oldest element first; window_size is the bound kept by the trimming
loop in the method underscore-record-window. -/
structure WindowState where
  minCounts : List (AttrId × Int)
  capacity : Int
  windowSize : Nat
  riskMargin : Rat
  minObservations : Int
  counts : AttrId → Int
  windowHelpful : List Bool

/-- Construction of WindowRelaxedPolicy: the dataclass has no
__post_init__, so no parameter validation happens and construction always
succeeds. -/
def mkWindowRelaxedPolicy (minCounts : List (AttrId × Int)) (capacity : Int)
    (windowSize : Nat) (riskMargin : Rat) (minObservations : Int) :
    Except String WindowState :=
  Except.ok ⟨minCounts, capacity, windowSize, riskMargin, minObservations,
    fun _ => 0, []⟩

/-- The method underscore-record-window: append, then pop from the left
while the length exceeds window_size. -/
def recordWindow (w : List Bool) (h : Bool) (ws : Nat) : List Bool :=
  let w2 := w ++ [h]
  w2.drop (w2.length - ws)

/-- The method underscore-p-hat: fraction of True entries in the window,
0 for an empty window. -/
def pHatOf (w : List Bool) : Rat :=
  if w.isEmpty then 0 else ((w.count true : Int) : Rat) / ((w.length : Int) : Rat)

/-- WindowRelaxedPolicy.update_on_accept. -/
def WindowState.updateOnAccept (s : WindowState) (attrs : Cand) : WindowState :=
  { s with counts := updateCounts s.counts attrs }

/-- WindowRelaxedPolicy.record_observation = the method
underscore-record-window. -/
def windowRecordObservation (s : WindowState) (helpful : Bool) : WindowState :=
  { s with windowHelpful := recordWindow s.windowHelpful helpful s.windowSize }

/-- WindowRelaxedPolicy.decide.  The candidate's helpfulness is recorded
into the window first; the decision is then computed from the recorded
window (the only state mutated is the window). -/
def windowDecide (s : WindowState) (admitted : Int) (attrs : Cand) :
    Bool × WindowState :=
  let R := max 0 (s.capacity - admitted)
  let helpful := isHelpful s.minCounts s.counts attrs
  let s1 := windowRecordObservation s helpful
  let d : Bool :=
    if helpful then true
    else
      let S := needSum s.minCounts s.counts
      if S ≥ R then false
      else if (s1.windowHelpful.length : Int) < s.minObservations then
        decide (S < R - 1)
      else
        let R' : Int := max 1 (R - 1)
        decide (pHatOf s1.windowHelpful ≥ ((S : Rat) / (R' : Rat)) * (1 + s.riskMargin))
  (d, s1)

/-! ### EwmaRelaxedPolicy (src/berghain/ewma_policy.py) -/

/-- State of EwmaRelaxedPolicy: a single global EWMA helpful rate p_hat and
an observation counter n_obs. -/
structure EwmaState where
  minCounts : List (AttrId × Int)
  capacity : Int
  alpha : Rat
  riskMargin : Rat
  warmupObservations : Int
  counts : AttrId → Int
  pHat : Rat
  nObs : Int

/-- Construction of EwmaRelaxedPolicy: no __post_init__, no validation. -/
def mkEwmaRelaxedPolicy (minCounts : List (AttrId × Int)) (capacity : Int)
    (alpha riskMargin : Rat) (warmupObservations : Int) :
    Except String EwmaState :=
  Except.ok ⟨minCounts, capacity, alpha, riskMargin, warmupObservations,
    fun _ => 0, 0, 0⟩

/-- The method underscore-update-p-hat: initialize to the first observation,
afterwards p_hat := a * x + (1 - a) * p_hat with a = alpha clamped into
the interval from 1e-6 to 1; n_obs is incremented either way. -/
def updatePHat (s : EwmaState) (helpful : Bool) : EwmaState :=
  let x : Rat := if helpful then 1 else 0
  if s.nObs = 0 then { s with pHat := x, nObs := s.nObs + 1 }
  else
    let a := max (1 / 1000000) (min 1 s.alpha)
    { s with pHat := a * x + (1 - a) * s.pHat, nObs := s.nObs + 1 }

/-- EwmaRelaxedPolicy.update_on_accept. -/
def EwmaState.updateOnAccept (s : EwmaState) (attrs : Cand) : EwmaState :=
  { s with counts := updateCounts s.counts attrs }

/-- EwmaRelaxedPolicy.record_observation = the method
underscore-update-p-hat. -/
def ewmaRecordObservation (s : EwmaState) (helpful : Bool) : EwmaState :=
  updatePHat s helpful

/-- EwmaRelaxedPolicy.decide: the EWMA is updated with this arrival first,
then the same gate structure as the window policy is evaluated with the
global p_hat. -/
def ewmaDecide (s : EwmaState) (admitted : Int) (attrs : Cand) :
    Bool × EwmaState :=
  let R := max 0 (s.capacity - admitted)
  let helpful := isHelpful s.minCounts s.counts attrs
  let s1 := updatePHat s helpful
  let d : Bool :=
    if helpful then true
    else
      let S := needSum s.minCounts s.counts
      if S ≥ R then false
      else if s1.nObs < s.warmupObservations then decide (S < R - 1)
      else
        let R' : Int := max 1 (R - 1)
        decide (s1.pHat ≥ ((S : Rat) / (R' : Rat)) * (1 + s.riskMargin))
  (d, s1)

/-! ### AttributeEwmaPolicy (src/berghain/attr_ewma_policy.py) -/

/-- State of AttributeEwmaPolicy.  The per-attribute EWMA table p_hat is a
partial map (Python dict whose get returns None when a key is missing);
prior_freqs and correlations are optional association structures, with
none also standing for the falsy empty dict where the source tests
truthiness. -/
structure AttrState where
  minCounts : List (AttrId × Int)
  capacity : Int
  alpha : Rat
  riskMargin : Rat
  warmupObservations : Int
  priorFreqs : Option (List (AttrId × Rat))
  gateTopK : Option Int
  correlations : Option (List (AttrId × List (AttrId × Rat)))
  corrBeta : Rat
  corrIncludeNegative : Bool
  counts : AttrId → Int
  pHat : AttrId → Option Rat
  nObs : Int

/-- Construction of AttributeEwmaPolicy: no __post_init__, no validation. -/
def mkAttributeEwmaPolicy (minCounts : List (AttrId × Int)) (capacity : Int)
    (alpha riskMargin : Rat) (warmupObservations : Int)
    (priorFreqs : Option (List (AttrId × Rat))) (gateTopK : Option Int)
    (correlations : Option (List (AttrId × List (AttrId × Rat))))
    (corrBeta : Rat) (corrIncludeNegative : Bool) : Except String AttrState :=
  Except.ok ⟨minCounts, capacity, alpha, riskMargin, warmupObservations,
    priorFreqs, gateTopK, correlations, corrBeta, corrIncludeNegative,
    fun _ => 0, fun _ => none, 0⟩

/-- The method underscore-ewma-update on the p_hat table: when the key is
missing the previous value is seeded from prior_freqs (falling back to the
observation itself), then the EWMA step is applied with alpha clamped into
the interval from 1e-6 to 1. -/
def ewmaUpdateFn (alpha : Rat) (priorFreqs : Option (List (AttrId × Rat)))
    (ph : AttrId → Option Rat) (a : AttrId) (x : Rat) : AttrId → Option Rat :=
  let aS := max (1 / 1000000) (min 1 alpha)
  let prev :=
    match ph a with
    | some v => v
    | none =>
      match priorFreqs with
      | some pf => (pf.lookup a).getD x
      | none => x
  fun b => if b = a then some (aS * x + (1 - aS) * prev) else ph b

/-- The method underscore-record-arrival: update the EWMA of every
constrained attribute from the full attribute vector, then increment
n_obs. -/
def recordArrival (s : AttrState) (attrs : Cand) : AttrState :=
  { s with
    pHat := s.minCounts.foldl
      (fun ph p => ewmaUpdateFn s.alpha s.priorFreqs ph p.1
        (if attrs p.1 then 1 else 0)) s.pHat,
    nObs := s.nObs + 1 }

/-- AttributeEwmaPolicy.update_on_accept. -/
def AttrState.updateOnAccept (s : AttrState) (attrs : Cand) : AttrState :=
  { s with counts := updateCounts s.counts attrs }

/-- AttributeEwmaPolicy.record_observation: a no-op (pass); the source
comment says priming goes through the method underscore-record-arrival on
the full vector instead. -/
def attrRecordObservation (s : AttrState) (_helpful : Bool) : AttrState := s

/-- Stable descending insertion by the need component, modelling the Python
call sort(key=need, reverse=True), which is a stable descending sort. -/
def insertByNeedDesc (x : AttrId × Int) : List (AttrId × Int) → List (AttrId × Int)
  | [] => [x]
  | y :: ys => if x.2 ≥ y.2 then x :: y :: ys else y :: insertByNeedDesc x ys

/-- Stable descending sort by the need component (Python list.sort with
reverse=True is stable; insertion sort realises the same permutation). -/
def sortByNeedDesc : List (AttrId × Int) → List (AttrId × Int)
  | [] => []
  | x :: xs => insertByNeedDesc x (sortByNeedDesc xs)

/-- AttributeEwmaPolicy.decide.  The estimator update (the method
underscore-record-arrival) happens first; the returned state differs from
the input state only in p_hat and n_obs. -/
def attrDecide (s : AttrState) (admitted : Int) (attrs : Cand) :
    Bool × AttrState :=
  let R := max 0 (s.capacity - admitted)
  let helpful := isHelpful s.minCounts s.counts attrs
  let s1 := recordArrival s attrs
  let d : Bool :=
    if R ≤ 0 then false
    else
      let contrib : AttrId → Int := fun a => if attrs a then 1 else 0
      let Rpost := max 0 (R - 1)
      let countsAfter : AttrId → Int := fun a => s.counts a + contrib a
      let remainingAfter := s.minCounts.map fun p => (p.1, max 0 (p.2 - countsAfter p.1))
      let underfilled := remainingAfter.filter fun p => decide (0 < p.2)
      let maxNeed := (underfilled.map (fun p => p.2)).foldl max 0
      if underfilled.any fun p => decide (Rpost < p.2) then false
      else if s1.nObs < s.warmupObservations then
        if helpful then true
        else if Rpost ≤ 0 then false
        else decide (needSum s.minCounts s.counts < Rpost)
      else if underfilled.isEmpty then true
      else
        let marginEff : Rat :=
          if Rpost = 0 then s.riskMargin
          else s.riskMargin * min 1 ((maxNeed : Rat) / (Rpost : Rat))
        let allNames := underfilled.map (fun p => p.1)
        let gated :=
          match s.gateTopK with
          | some k =>
            if 0 < k ∧ k < (underfilled.length : Int) then
              (sortByNeedDesc underfilled).take k.toNat
            else underfilled
          | none => underfilled
        gated.all fun p =>
          if 0 < contrib p.1 then true
          else
            let p0 := (s1.pHat p.1).getD 0
            let pAdj :=
              match s.correlations with
              | some cors =>
                if ¬ cors.isEmpty ∧ s.corrBeta ≠ 0 ∧ 1 < allNames.length then
                  let row := (cors.lookup p.1).getD []
                  let corrs := allNames.filterMap fun b =>
                    if b = p.1 then none
                    else
                      let r := (row.lookup b).getD 0
                      if 0 ≤ r ∨ s.corrIncludeNegative then some r else none
                  if corrs.isEmpty then p0
                  else
                    let avgCorr := corrs.sum / ((corrs.length : Int) : Rat)
                    min 1 (max 0 (p0 * (1 + s.corrBeta * avgCorr)))
                else p0
              | none => p0
            let expectedHelp := pAdj * ((Rpost : Int) : Rat)
            let target : Rat := (((s.minCounts.lookup p.1).getD 0 : Int) : Rat) * (1 + marginEff)
            !(decide (((countsAfter p.1 : Int) : Rat) + expectedHelp < target))
  (d, s1)

/-! ### Event log records and reconstruction (src/berghain/runner.py) -/

/-- Typed event log records (the "event" field of each JSON line), keeping
the fields consumed by the reconstruction and replay code: constraints and
capacity of a start record, send_person_index / decide_for_attrs / accept
of a request record, next_person_index of a response record.  The other
record kinds are ignored by reconstruction and are collapsed into
dedicated payload-free constructors. -/
inductive Rec where
  | start (constraints : List (AttrId × Int)) (capacity : Int)
  | request (sendPersonIndex : Int) (decideForAttrs : Cand) (accept : Bool)
  | response (nextPersonIndex : Option Int)
  | progress
  | completed
  | failed
  | resync

/-- One physical line of the event log: either a record that json.loads
parses, or a malformed line (which also covers blank lines: both are
skipped by the reading loop). -/
inductive LogLine where
  | malformed (text : String)
  | record (r : Rec)

/-- The parse step of the reading loop in the function
underscore-reconstruct-from-log: json.loads inside try/except, malformed
lines yield nothing and are skipped. -/
def parseLine : LogLine → Option Rec
  | LogLine.malformed _ => none
  | LogLine.record r => some r

/-- Body of the first scanning loop of the function
underscore-reconstruct-from-log: a start record resets the remembered
start and empties the buffer; any other record is appended to the buffer
when a start has been seen, and skipped otherwise. -/
def flsStep (acc : Option ((List (AttrId × Int) × Int) × List Rec)) (r : Rec) :
    Option ((List (AttrId × Int) × Int) × List Rec) :=
  match r with
  | Rec.start c cap => some ((c, cap), [])
  | _ =>
    match acc with
    | some (si, buf) => some (si, buf ++ [r])
    | none => none

/-- First scanning loop of the function underscore-reconstruct-from-log:
remember the most recent start record and buffer everything after it
(the start record itself is dropped from the buffer here; the Python
buffer keeps it but never reads it again, since a start record is neither
a request nor a response). -/
def findLastStart (l : List Rec) : Option ((List (AttrId × Int) × Int) × List Rec) :=
  l.foldl flsStep none

/-- Resume state returned by the function underscore-reconstruct-from-log,
restricted to the fields the claims speak about. -/
structure ResumeState where
  constraints : List (AttrId × Int)
  capacity : Int
  acceptedCounts : AttrId → Int
  nextIndex : Int
  prevAccept : Bool

/-- Accumulator of the second loop of the function
underscore-reconstruct-from-log: accepted counts, the last request record
and the last response record seen so far. -/
structure ScanSt where
  counts : AttrId → Int
  lastRequest : Option (Int × Cand × Bool)
  lastResponse : Option (Option Int)

/-- Body of the second loop of the function
underscore-reconstruct-from-log: request records bump the accepted counts
when accept is true and become the last request; response records become
the last response; everything else is skipped. -/
def scanStep (st : ScanSt) (r : Rec) : ScanSt :=
  match r with
  | Rec.request si attrs acc =>
    { counts := if acc then updateCounts st.counts attrs else st.counts,
      lastRequest := some (si, attrs, acc),
      lastResponse := st.lastResponse }
  | Rec.response n => { st with lastResponse := some n }
  | _ => st

/-- The function underscore-reconstruct-from-log on an already-read list of
parsed records: locate the most recent start record, scan the buffer after
it, then determine the next index and previous-accept flag, preferring the
last response record when its next_person_index is non-null, falling back
to the last request record, and raising otherwise. -/
def reconstructRecs (recs : List Rec) : Except String ResumeState :=
  match findLastStart recs with
  | none => Except.error "No start event found in log"
  | some (si, buf) =>
    let st := buf.foldl scanStep ⟨fun _ => 0, none, none⟩
    match st.lastResponse with
    | some (some n) =>
      Except.ok ⟨si.1, si.2, st.counts, n,
        (st.lastRequest.map (fun q => q.2.2)).getD false⟩
    | _ =>
      match st.lastRequest with
      | some q => Except.ok ⟨si.1, si.2, st.counts, q.1, q.2.2⟩
      | none => Except.error "No request/response events to infer next index"

/-- The function underscore-reconstruct-from-log on the raw log: skip
malformed lines, then reconstruct from the parsed records.  It is a pure
function of the log contents alone: the network client is not involved
(resume_game constructs the client only after this function returns). -/
def reconstructFromLog (log : List LogLine) : Except String ResumeState :=
  reconstructRecs (log.filterMap parseLine)

/-- True when a modelled construction or reconstruction raised, i.e.
returned Except.error. -/
def raisesError {α : Type} : Except String α → Bool
  | Except.error _ => true
  | Except.ok _ => false

/-! ### Live runs and replay priming (run_game / resume_game loops) -/

/-- Helpfulness computation of the replay loop in resume_game: for each
constrained attribute, need = max(0, m - have) against the running counts,
helpful when some underfilled attribute is carried by the logged
candidate. -/
def replayHelpful (constraints : List (AttrId × Int)) (counts : AttrId → Int)
    (attrs : Cand) : Bool :=
  constraints.any fun p => decide (0 < max 0 (p.2 - counts p.1)) && attrs p.1

/-- One iteration of the live loop for the window policy: decide (which
records the candidate into the window), then update_on_accept when the
decision was to accept. -/
def windowLiveStep (s : WindowState) (admitted : Int) (c : Cand) : WindowState :=
  let r := windowDecide s admitted c
  if r.1 then r.2.updateOnAccept c else r.2

/-- The live loop for the window policy over a stream of
(admitted_count, candidate) pairs. -/
def windowLiveRun : WindowState → List (Int × Cand) → WindowState
  | s, [] => s
  | s, step :: rest => windowLiveRun (windowLiveStep s step.1 step.2) rest

/-- Request records written by the live loop for the window policy: one per
candidate, carrying the attribute vector and the accept decision taken
(jlogger.request in run_game; the send index is irrelevant to replay). -/
def windowLogOf : WindowState → List (Int × Cand) → List Rec
  | _, [] => []
  | s, step :: rest =>
    let r := windowDecide s step.1 step.2
    Rec.request (step.1 + 1) step.2 r.1 ::
      windowLogOf (if r.1 then r.2.updateOnAccept step.2 else r.2) rest

/-- One replayed request record for the window policy (the priming loop in
resume_game): compute helpfulness against the running counts, feed it to
record_observation, then apply the acceptance effects to the counts. -/
def windowReplayStep (s : WindowState) (attrs : Cand) (acc : Bool) : WindowState :=
  let helpful := replayHelpful s.minCounts s.counts attrs
  let s1 := windowRecordObservation s helpful
  if acc then { s1 with counts := updateCounts s1.counts attrs } else s1

/-- The priming loop in resume_game for the window policy: replay request
records in order, ignore every other record kind. -/
def windowReplay : WindowState → List Rec → WindowState
  | s, [] => s
  | s, Rec.request _ attrs acc :: rest => windowReplay (windowReplayStep s attrs acc) rest
  | s, _ :: rest => windowReplay s rest

/-- One iteration of the live loop for the global-EWMA policy. -/
def ewmaLiveStep (s : EwmaState) (admitted : Int) (c : Cand) : EwmaState :=
  let r := ewmaDecide s admitted c
  if r.1 then r.2.updateOnAccept c else r.2

/-- The live loop for the global-EWMA policy. -/
def ewmaLiveRun : EwmaState → List (Int × Cand) → EwmaState
  | s, [] => s
  | s, step :: rest => ewmaLiveRun (ewmaLiveStep s step.1 step.2) rest

/-- Request records written by the live loop for the global-EWMA policy. -/
def ewmaLogOf : EwmaState → List (Int × Cand) → List Rec
  | _, [] => []
  | s, step :: rest =>
    let r := ewmaDecide s step.1 step.2
    Rec.request (step.1 + 1) step.2 r.1 ::
      ewmaLogOf (if r.1 then r.2.updateOnAccept step.2 else r.2) rest

/-- One replayed request record for the global-EWMA policy. -/
def ewmaReplayStep (s : EwmaState) (attrs : Cand) (acc : Bool) : EwmaState :=
  let helpful := replayHelpful s.minCounts s.counts attrs
  let s1 := ewmaRecordObservation s helpful
  if acc then { s1 with counts := updateCounts s1.counts attrs } else s1

/-- The priming loop in resume_game for the global-EWMA policy. -/
def ewmaReplay : EwmaState → List Rec → EwmaState
  | s, [] => s
  | s, Rec.request _ attrs acc :: rest => ewmaReplay (ewmaReplayStep s attrs acc) rest
  | s, _ :: rest => ewmaReplay s rest

/-- One iteration of the live loop for the attribute-EWMA policy. -/
def attrLiveStep (s : AttrState) (admitted : Int) (c : Cand) : AttrState :=
  let r := attrDecide s admitted c
  if r.1 then r.2.updateOnAccept c else r.2

/-- The live loop for the attribute-EWMA policy. -/
def attrLiveRun : AttrState → List (Int × Cand) → AttrState
  | s, [] => s
  | s, step :: rest => attrLiveRun (attrLiveStep s step.1 step.2) rest

/-- Request records written by the live loop for the attribute-EWMA
policy. -/
def attrLogOf : AttrState → List (Int × Cand) → List Rec
  | _, [] => []
  | s, step :: rest =>
    let r := attrDecide s step.1 step.2
    Rec.request (step.1 + 1) step.2 r.1 ::
      attrLogOf (if r.1 then r.2.updateOnAccept step.2 else r.2) rest

/-- One replayed request record for the attribute-EWMA policy: the
helpfulness boolean is fed to record_observation, which is a no-op for
this policy; only the count bump takes effect. -/
def attrReplayStep (s : AttrState) (attrs : Cand) (acc : Bool) : AttrState :=
  let helpful := replayHelpful s.minCounts s.counts attrs
  let s1 := attrRecordObservation s helpful
  if acc then { s1 with counts := updateCounts s1.counts attrs } else s1

/-- The priming loop in resume_game for the attribute-EWMA policy. -/
def attrReplay : AttrState → List Rec → AttrState
  | s, [] => s
  | s, Rec.request _ attrs acc :: rest => attrReplay (attrReplayStep s attrs acc) rest
  | s, _ :: rest => attrReplay s rest

/-! ### Record classifiers, log-shape vocabulary and concrete states -/

/-- True exactly on start records (the test rec.get("event") == "start"). -/
def isStart : Rec → Bool
  | Rec.start _ _ => true
  | _ => false

/-- True exactly on request records. -/
def isRequest : Rec → Bool
  | Rec.request _ _ _ => true
  | _ => false

/-- True exactly on response records. -/
def isResponse : Rec → Bool
  | Rec.response _ => true
  | _ => false

/-- The next_person_index payload of a response record (none elsewhere). -/
def respNext : Rec → Option Int
  | Rec.response n => n
  | _ => none

/-- The portion of the record list strictly after its most recent start
record (the whole list when it has no start record). -/
def afterLastStart (l : List Rec) : List Rec :=
  (l.reverse.takeWhile fun r => !isStart r).reverse

/-- Insertion of an element at a given position of a list, clamping to the
end when the position exceeds the length (Python list insertion). -/
def insertAt {α : Type} (i : Nat) (x : α) : List α → List α
  | [] => [x]
  | y :: ys =>
    match i with
    | 0 => x :: y :: ys
    | Nat.succ j => y :: insertAt j x ys

/-- The AttributeEwmaPolicy state of the top-K/correlation scenario:
constraints A needs 3 and B needs 1, capacity 20, alpha 1e-6 (negligible),
risk_margin 0, warmup 0, gate_top_k 1, correlations 0.5 between A and B
with corr_beta 1, nothing accepted, p_hat seeded to A 0.3 and B 0.9. -/
def c5State : AttrState :=
  ⟨[("A", 3), ("B", 1)], 20, 1 / 1000000, 0, 0, none, some 1,
    some [("A", [("B", 1 / 2)]), ("B", [("A", 1 / 2)])], 1, false,
    fun _ => 0,
    fun a => if a = "A" then some (3 / 10) else if a = "B" then some (9 / 10) else none,
    0⟩

/-- A fresh AttributeEwmaPolicy with one constraint (one more "A" needed)
and capacity 10, default tunables, as both the live policy and the
resuming policy would be constructed. -/
def c2AttrState : AttrState :=
  ⟨[("A", 1)], 10, 4 / 100, 1 / 5, 200, none, none, none, 1 / 4, false,
    fun _ => 0, fun _ => none, 0⟩

/-! ### Helper lemmas -/

theorem remainingNeeded_nonneg (mc : List (AttrId × Int)) (counts : AttrId → Int)
    (a : AttrId) : 0 ≤ remainingNeeded mc counts a :=
  le_max_left 0 _

theorem remainingNeeded_updateCounts_le (mc : List (AttrId × Int))
    (counts : AttrId → Int) (attrs : Cand) (a : AttrId) :
    remainingNeeded mc (updateCounts counts attrs) a ≤ remainingNeeded mc counts a := by
  unfold remainingNeeded updateCounts
  refine max_le_max le_rfl ?_
  have h0 : (0 : Int) ≤ (if attrs a then (1 : Int) else 0) := by
    cases attrs a <;> simp
  omega

theorem needSum_updateCounts_nonhelpful (mc : List (AttrId × Int))
    (counts : AttrId → Int) (attrs : Cand)
    (h : isHelpful mc counts attrs = false) :
    needSum mc (updateCounts counts attrs) = needSum mc counts := by
  induction mc with
  | nil => rfl
  | cons p t ih =>
    unfold isHelpful at h ih
    simp only [List.any_cons, Bool.or_eq_false_iff] at h
    have hhead : remOf (updateCounts counts attrs) p = remOf counts p := by
      unfold remOf updateCounts
      rcases h with ⟨h1, _⟩
      cases ha : attrs p.1 with
      | false => simp [ha]
      | true =>
        have : ¬ (0 < remOf counts p) := by
          intro hlt
          rw [ha] at h1
          simp [hlt] at h1
        unfold remOf at this
        simp [ha]
        omega
    unfold needSum at ih ⊢
    simp only [List.map_cons, List.sum_cons, hhead, ih h.2]

/-! ### Claim theorems -/

/-- C1 counterexample.  QuotaReservePolicy with one constraint needing one
more "A", capacity 2, nothing accepted yet, admitted_count 0, and a
non-helpful candidate carrying no attribute: here S = 1 and R = 2, so the
claimed acceptance condition S < R - 1 is false, yet decide returns True;
moreover after accepting, the post-accept sum of remaining-needed (1)
is not strictly less than the post-accept remaining capacity R - 1 (1).
This refutes the claimed iff and the claimed strict safety invariant. -/
theorem c1_counterexample :
    quotaDecide ⟨[("A", 1)], 2, fun _ => 0⟩ 0 (fun _ => false) = true ∧
    isHelpful [("A", 1)] (fun _ => 0) (fun _ => false) = false ∧
    ¬ (needSum [("A", 1)] (fun _ => 0) < max 0 ((2 : Int) - 0) - 1) ∧
    ¬ (needSum [("A", 1)] (updateCounts (fun _ => 0) (fun _ => false)) <
        max 0 ((2 : Int) - 0) - 1) := by
  refine ⟨by decide, by decide, by decide, by decide⟩

/-- C1 (amended).  For every QuotaReservePolicy state and non-helpful
candidate, decide returns True iff S < R (equivalently S <= R - 1), where
R = max(0, capacity - admitted_count); consequently, whenever a
non-helpful candidate is accepted, the post-accept sum of remaining-needed
is at most (not strictly less than) the post-accept remaining capacity
R - 1. -/
theorem c1_quota_nonhelpful_accept_iff (s : QuotaState) (admitted : Int)
    (attrs : Cand) (h : isHelpful s.minCounts s.counts attrs = false) :
    (quotaDecide s admitted attrs = true ↔
      needSum s.minCounts s.counts < max 0 (s.capacity - admitted)) ∧
    (quotaDecide s admitted attrs = true →
      needSum s.minCounts ((s.updateOnAccept attrs).counts) ≤
        max 0 (s.capacity - admitted) - 1) := by
  have hsum : needSum s.minCounts ((s.updateOnAccept attrs).counts) =
      needSum s.minCounts s.counts :=
    needSum_updateCounts_nonhelpful _ _ _ h
  unfold quotaDecide
  rw [h]
  constructor
  · by_cases hge : needSum s.minCounts s.counts ≥ max 0 (s.capacity - admitted)
    · simp [hge]
      omega
    · simp [hge]
      omega
  · intro hacc
    rw [hsum]
    by_cases hge : needSum s.minCounts s.counts ≥ max 0 (s.capacity - admitted)
    · simp [hge] at hacc
    · omega

/-- C1 witness: the amended theorem applied to the concrete state of the
counterexample but with capacity 5, where decide accepts with S = 1 < R = 5
and the post-accept sum 1 is at most R - 1 = 4. -/
theorem c1_witness :
    isHelpful [("A", 1)] (fun _ => 0) (fun _ => false) = false ∧
    ((quotaDecide ⟨[("A", 1)], 5, fun _ => 0⟩ 0 (fun _ => false) = true ↔
       needSum [("A", 1)] (fun _ => 0) < max 0 ((5 : Int) - 0)) ∧
     (quotaDecide ⟨[("A", 1)], 5, fun _ => 0⟩ 0 (fun _ => false) = true →
       needSum [("A", 1)]
           ((QuotaState.updateOnAccept ⟨[("A", 1)], 5, fun _ => 0⟩
             (fun _ => false)).counts) ≤ max 0 ((5 : Int) - 0) - 1)) :=
  ⟨by decide, c1_quota_nonhelpful_accept_iff ⟨[("A", 1)], 5, fun _ => 0⟩ 0
      (fun _ => false) (by decide)⟩

theorem updatePHat_counts (s : EwmaState) (h : Bool) :
    (updatePHat s h).counts = s.counts := by
  unfold updatePHat
  by_cases hn : s.nObs = 0 <;> simp [hn]

/-- C9 (confirmed).  Across every call of the policy contract, the
remaining-needed view never increases and is never negative: decide and
record_observation leave the accepted counts unchanged for all four
variants (so remaining_needed is unchanged by them), update_on_accept only
increments counts (so remaining_needed is pointwise non-increasing), and
remaining_needed is non-negative by construction.  Together these give
non-increase over any interleaving of the three calls. -/
theorem c9_remaining_needed_monotone :
    (∀ (s : QuotaState) (h : Bool), (quotaRecordObservation s h).counts = s.counts) ∧
    (∀ (s : QuotaState) (attrs : Cand) (a : AttrId),
      remainingNeeded s.minCounts ((s.updateOnAccept attrs).counts) a ≤
        remainingNeeded s.minCounts s.counts a) ∧
    (∀ (s : WindowState) (admitted : Int) (attrs : Cand),
      (windowDecide s admitted attrs).2.counts = s.counts) ∧
    (∀ (s : WindowState) (h : Bool), (windowRecordObservation s h).counts = s.counts) ∧
    (∀ (s : WindowState) (attrs : Cand) (a : AttrId),
      remainingNeeded s.minCounts ((s.updateOnAccept attrs).counts) a ≤
        remainingNeeded s.minCounts s.counts a) ∧
    (∀ (s : EwmaState) (admitted : Int) (attrs : Cand),
      (ewmaDecide s admitted attrs).2.counts = s.counts) ∧
    (∀ (s : EwmaState) (h : Bool), (ewmaRecordObservation s h).counts = s.counts) ∧
    (∀ (s : EwmaState) (attrs : Cand) (a : AttrId),
      remainingNeeded s.minCounts ((s.updateOnAccept attrs).counts) a ≤
        remainingNeeded s.minCounts s.counts a) ∧
    (∀ (s : AttrState) (admitted : Int) (attrs : Cand),
      (attrDecide s admitted attrs).2.counts = s.counts) ∧
    (∀ (s : AttrState) (h : Bool), (attrRecordObservation s h).counts = s.counts) ∧
    (∀ (s : AttrState) (attrs : Cand) (a : AttrId),
      remainingNeeded s.minCounts ((s.updateOnAccept attrs).counts) a ≤
        remainingNeeded s.minCounts s.counts a) ∧
    (∀ (mc : List (AttrId × Int)) (counts : AttrId → Int) (a : AttrId),
      0 ≤ remainingNeeded mc counts a) := by
  refine ⟨fun s h => rfl,
    fun s attrs a => remainingNeeded_updateCounts_le _ _ _ _,
    fun s admitted attrs => rfl,
    fun s h => rfl,
    fun s attrs a => remainingNeeded_updateCounts_le _ _ _ _,
    fun s admitted attrs => updatePHat_counts s _,
    fun s h => updatePHat_counts s h,
    fun s attrs a => remainingNeeded_updateCounts_le _ _ _ _,
    fun s admitted attrs => rfl,
    fun s h => rfl,
    fun s attrs a => remainingNeeded_updateCounts_le _ _ _ _,
    fun mc counts a => remainingNeeded_nonneg _ _ _⟩

/-- C10 (confirmed).  QuotaReserve, WindowRelaxed and EwmaRelaxed check
helpfulness before any capacity guard, so with admitted_count at or above
capacity a helpful candidate is still accepted; only AttributeEwmaPolicy
rejects unconditionally once R = max(0, capacity - admitted) is zero. -/
theorem c10_helpful_bypasses_capacity (s₁ : QuotaState) (s₂ : WindowState)
    (s₃ : EwmaState) (s₄ : AttrState) (admitted : Int) (attrs : Cand) :
    (s₁.capacity ≤ admitted → isHelpful s₁.minCounts s₁.counts attrs = true →
      quotaDecide s₁ admitted attrs = true) ∧
    (s₂.capacity ≤ admitted → isHelpful s₂.minCounts s₂.counts attrs = true →
      (windowDecide s₂ admitted attrs).1 = true) ∧
    (s₃.capacity ≤ admitted → isHelpful s₃.minCounts s₃.counts attrs = true →
      (ewmaDecide s₃ admitted attrs).1 = true) ∧
    (s₄.capacity ≤ admitted → (attrDecide s₄ admitted attrs).1 = false) := by
  refine ⟨fun _ h => ?_, fun _ h => ?_, fun _ h => ?_, fun hcap => ?_⟩
  · simp [quotaDecide, h]
  · simp [windowDecide, h]
  · simp [ewmaDecide, h]
  · have hR : max 0 (s₄.capacity - admitted) ≤ 0 := by omega
    unfold attrDecide
    simp only [hR, if_pos]

/-- C10 witness: concrete one-constraint states at full capacity
(capacity 5, admitted 5) and a candidate carrying the still-needed
attribute "A": the three relaxed-or-baseline policies accept, the
attribute-EWMA policy rejects. -/
theorem c10_witness :
    ((5 : Int) ≤ 5 → isHelpful [("A", 1)] (fun _ => 0) (fun a => a == "A") = true →
      quotaDecide ⟨[("A", 1)], 5, fun _ => 0⟩ 5 (fun a => a == "A") = true) ∧
    ((5 : Int) ≤ 5 → isHelpful [("A", 1)] (fun _ => 0) (fun a => a == "A") = true →
      (windowDecide ⟨[("A", 1)], 5, 500, 15 / 100, 100, fun _ => 0, []⟩ 5
        (fun a => a == "A")).1 = true) ∧
    ((5 : Int) ≤ 5 → isHelpful [("A", 1)] (fun _ => 0) (fun a => a == "A") = true →
      (ewmaDecide ⟨[("A", 1)], 5, 3 / 100, 15 / 100, 100, fun _ => 0, 0, 0⟩ 5
        (fun a => a == "A")).1 = true) ∧
    ((5 : Int) ≤ 5 →
      (attrDecide ⟨[("A", 1)], 5, 4 / 100, 1 / 5, 200, none, none, none, 1 / 4,
        false, fun _ => 0, fun _ => none, 0⟩ 5 (fun a => a == "A")).1 = false) := by
  have h := c10_helpful_bypasses_capacity ⟨[("A", 1)], 5, fun _ => 0⟩
    ⟨[("A", 1)], 5, 500, 15 / 100, 100, fun _ => 0, []⟩
    ⟨[("A", 1)], 5, 3 / 100, 15 / 100, 100, fun _ => 0, 0, 0⟩
    ⟨[("A", 1)], 5, 4 / 100, 1 / 5, 200, none, none, none, 1 / 4, false,
      fun _ => 0, fun _ => none, 0⟩ 5 (fun a => a == "A")
  exact h

/-- C4 (confirmed).  The worst-case guard of AttributeEwmaPolicy.decide:
whenever some constrained attribute would, even after counting this
candidate's own contribution, still need more than the post-accept
remaining capacity R_post = max(0, R - 1), decide returns False — in
warmup and post-warmup alike (and it also returns False when R is already
zero or less, where R_post is zero and the premise forces a positive
need). -/
theorem c4_attr_worst_case_guard (s : AttrState) (admitted : Int) (attrs : Cand)
    (h : ∃ p ∈ s.minCounts,
      max 0 (max 0 (s.capacity - admitted) - 1) <
        max 0 (p.2 - (s.counts p.1 + (if attrs p.1 then 1 else 0)))) :
    (attrDecide s admitted attrs).1 = false := by
  obtain ⟨p, hmem, hgt⟩ := h
  by_cases hR : max 0 (s.capacity - admitted) ≤ 0
  · unfold attrDecide
    simp only [hR, if_pos]
  · have hany :
        ((s.minCounts.map fun q =>
            (q.1, max 0 (q.2 - (s.counts q.1 + (if attrs q.1 then 1 else 0))))).filter
          (fun q => decide (0 < q.2))).any
          (fun q => decide (max 0 (max 0 (s.capacity - admitted) - 1) < q.2)) = true := by
      rw [List.any_eq_true]
      refine ⟨(p.1, max 0 (p.2 - (s.counts p.1 + (if attrs p.1 then 1 else 0)))), ?_, ?_⟩
      · rw [List.mem_filter]
        refine ⟨List.mem_map.mpr ⟨p, hmem, rfl⟩, ?_⟩
        have hpos : (0 : Int) < max 0 (p.2 - (s.counts p.1 + (if attrs p.1 then 1 else 0))) := by
          have : (0 : Int) ≤ max 0 (max 0 (s.capacity - admitted) - 1) := le_max_left 0 _
          omega
        simpa using hpos
      · simpa using hgt
    unfold attrDecide
    simp only [hR, if_neg, if_false]
    rw [hany]
    simp

/-- C4 witness: one constraint needing 3 more of "A", capacity 4,
admitted 2, a candidate without "A": post-accept need 3 exceeds
R_post = 1, so decide returns False. -/
theorem c4_witness :
    (∃ p ∈ [(("A" : AttrId), (3 : Int))],
      max 0 (max 0 ((4 : Int) - 2) - 1) <
        max 0 (p.2 - ((0 : Int) + (if (fun _ => false : Cand) p.1 then 1 else 0)))) ∧
    (attrDecide ⟨[("A", 3)], 4, 4 / 100, 1 / 5, 200, none, none, none, 1 / 4,
      false, fun _ => 0, fun _ => none, 0⟩ 2 (fun _ => false)).1 = false := by
  refine ⟨⟨("A", 3), by simp, by norm_num⟩, ?_⟩
  exact c4_attr_worst_case_guard _ 2 (fun _ => false) ⟨("A", 3), by simp, by norm_num⟩

/-- C3 (confirmed).  WindowRelaxedPolicy.decide follows exactly the claimed
ordered rule: the helpfulness of the candidate is appended to the window
first (evicting the oldest entries so that at most window_size remain, the
only state change); then a helpful candidate is accepted; else S >= R
rejects; else with fewer recorded observations than min_observations the
baseline rule S < R - 1 decides; else the window gate
p-hat >= (S / R') * (1 + risk_margin) decides, with R' = max(1, R - 1) and
p-hat the fraction of True entries of the (post-record) window.  The
number of recorded observations is the length of the window, the only
observation count the state carries. -/
theorem c3_window_decide_rule (s : WindowState) (admitted : Int) (attrs : Cand) :
    (windowDecide s admitted attrs).2 =
      { s with windowHelpful :=
          ((s.windowHelpful ++ [isHelpful s.minCounts s.counts attrs]).drop
            (s.windowHelpful.length + 1 - s.windowSize)) } ∧
    (windowDecide s admitted attrs).1 =
      (let h := isHelpful s.minCounts s.counts attrs
       let w' := (s.windowHelpful ++ [h]).drop (s.windowHelpful.length + 1 - s.windowSize)
       let R := max 0 (s.capacity - admitted)
       let S := needSum s.minCounts s.counts
       if h then true
       else if S ≥ R then false
       else if (w'.length : Int) < s.minObservations then decide (S < R - 1)
       else
         decide ((if w'.isEmpty then 0
             else ((w'.count true : Int) : Rat) / ((w'.length : Int) : Rat)) ≥
           ((S : Rat) / ((max 1 (R - 1) : Int) : Rat)) * (1 + s.riskMargin))) := by
  constructor
  · simp [windowDecide, windowRecordObservation, recordWindow]
  · simp [windowDecide, windowRecordObservation, recordWindow, pHatOf]

/-- C7 counterexample.  Constructing WindowRelaxedPolicy with capacity 0
succeeds (the dataclass has no __post_init__ and performs no validation),
contradicting the claim that all four variants reject a non-positive
capacity at construction time; likewise for the EWMA variants. -/
theorem c7_counterexample :
    raisesError (mkWindowRelaxedPolicy [("A", 1)] 0 500 (15 / 100) 100) = false ∧
    raisesError (mkEwmaRelaxedPolicy [("A", 1)] 0 (3 / 100) (15 / 100) 100) = false ∧
    raisesError (mkAttributeEwmaPolicy [("A", 1)] 0 (4 / 100) (1 / 5) 200 none none
      none (1 / 4) false) = false := by
  exact ⟨rfl, rfl, rfl⟩

/-- C7 (amended).  Only QuotaReservePolicy validates its capacity: its
construction raises ValueError exactly when capacity < 1, before any
decide call; the other three variants have no __post_init__ and always
construct successfully, whatever the capacity. -/
theorem c7_only_quota_validates_capacity (mc : List (AttrId × Int))
    (capacity : Int) (windowSize : Nat) (alpha riskMargin corrBeta : Rat)
    (warmup minObs : Int) (priorFreqs : Option (List (AttrId × Rat)))
    (gateTopK : Option Int) (cors : Option (List (AttrId × List (AttrId × Rat))))
    (inclNeg : Bool) (hcap : capacity < 1) :
    raisesError (mkQuotaReservePolicy mc capacity) = true ∧
    raisesError (mkWindowRelaxedPolicy mc capacity windowSize riskMargin minObs) = false ∧
    raisesError (mkEwmaRelaxedPolicy mc capacity alpha riskMargin warmup) = false ∧
    raisesError (mkAttributeEwmaPolicy mc capacity alpha riskMargin warmup priorFreqs
      gateTopK cors corrBeta inclNeg) = false := by
  refine ⟨?_, rfl, rfl, rfl⟩
  unfold mkQuotaReservePolicy raisesError
  rw [if_pos hcap]

/-- C7 witness: the amended theorem at capacity 0 with representative
tunables. -/
theorem c7_witness :
    (0 : Int) < 1 ∧
    (raisesError (mkQuotaReservePolicy [("A", 1)] 0) = true ∧
     raisesError (mkWindowRelaxedPolicy [("A", 1)] 0 500 (15 / 100) 100) = false ∧
     raisesError (mkEwmaRelaxedPolicy [("A", 1)] 0 (3 / 100) (15 / 100) 100) = false ∧
     raisesError (mkAttributeEwmaPolicy [("A", 1)] 0 (3 / 100) (15 / 100) 100 none
       none none (1 / 4) false) = false) :=
  ⟨by norm_num,
   c7_only_quota_validates_capacity [("A", 1)] 0 500 (3 / 100) (15 / 100)
     (1 / 4) 100 100 none none none false (by norm_num)⟩

/-- C5 (confirmed).  In the scenario state, for the non-helpful candidate
carrying neither attribute at admitted_count 11 (so R = 9, R_post = 8),
decide returns True: top-1 gating restricts the expectation check to A,
whose correlation-inflated rate about 0.45 gives expected help about 3.6
over the 8 remaining slots, clearing the target 3. -/
theorem c5_attr_topk_corr_accepts :
    (attrDecide c5State 11 (fun _ => false)).1 = true := by
  norm_num +decide [c5State, attrDecide, recordArrival, ewmaUpdateFn, isHelpful,
    remOf, needSum, sortByNeedDesc, insertByNeedDesc, max_def, min_def,
    List.lookup, List.filterMap]

theorem replayHelpful_eq (mc : List (AttrId × Int)) (counts : AttrId → Int)
    (attrs : Cand) : replayHelpful mc counts attrs = isHelpful mc counts attrs := by
  unfold replayHelpful isHelpful
  congr 1
  funext p
  simp [remOf, Bool.and_comm]

theorem windowReplayStep_eq_liveStep (s : WindowState) (admitted : Int) (c : Cand) :
    windowReplayStep s c (windowDecide s admitted c).1 = windowLiveStep s admitted c := by
  unfold windowReplayStep windowLiveStep
  rw [replayHelpful_eq]
  rfl

theorem windowReplay_eq_live (tr : List (Int × Cand)) :
    ∀ s : WindowState, windowReplay s (windowLogOf s tr) = windowLiveRun s tr := by
  induction tr with
  | nil => intro s; rfl
  | cons step rest ih =>
    intro s
    have hunf : windowReplay s (windowLogOf s (step :: rest)) =
        windowReplay (windowReplayStep s step.2 (windowDecide s step.1 step.2).1)
          (windowLogOf (windowLiveStep s step.1 step.2) rest) := rfl
    rw [hunf, windowReplayStep_eq_liveStep]
    exact ih (windowLiveStep s step.1 step.2)

theorem ewmaReplayStep_eq_liveStep (s : EwmaState) (admitted : Int) (c : Cand) :
    ewmaReplayStep s c (ewmaDecide s admitted c).1 = ewmaLiveStep s admitted c := by
  unfold ewmaReplayStep ewmaLiveStep
  rw [replayHelpful_eq]
  rfl

theorem ewmaReplay_eq_live (tr : List (Int × Cand)) :
    ∀ s : EwmaState, ewmaReplay s (ewmaLogOf s tr) = ewmaLiveRun s tr := by
  induction tr with
  | nil => intro s; rfl
  | cons step rest ih =>
    intro s
    have hunf : ewmaReplay s (ewmaLogOf s (step :: rest)) =
        ewmaReplay (ewmaReplayStep s step.2 (ewmaDecide s step.1 step.2).1)
          (ewmaLogOf (ewmaLiveStep s step.1 step.2) rest) := rfl
    rw [hunf, ewmaReplayStep_eq_liveStep]
    exact ih (ewmaLiveStep s step.1 step.2)

/-- C2 counterexample.  One live request (a candidate carrying "A"): the
live attribute-EWMA policy records the arrival (n_obs becomes 1 and
p_hat "A" is seeded), but replaying the resulting log feeds the helpful
boolean to record_observation, which is a no-op for this policy, so the
resumed estimator still has n_obs 0 and an empty p_hat table: the resumed
estimator state does not equal the live estimator state. -/
theorem c2_counterexample :
    (attrReplay c2AttrState (attrLogOf c2AttrState [(0, fun a => a == "A")])).nObs = 0 ∧
    (attrLiveRun c2AttrState [(0, fun a => a == "A")]).nObs = 1 ∧
    (attrReplay c2AttrState (attrLogOf c2AttrState [(0, fun a => a == "A")])).pHat "A"
      = none := by
  refine ⟨rfl, rfl, rfl⟩

/-- C2 (amended).  Resuming replays the logged request records in order,
recomputing helpfulness against the counts accumulated at that point of
the replay and feeding it to record_observation; for the window and
global-EWMA policies this reproduces the live policy state exactly (window
contents, EWMA scalar and observation count included).  For the
attribute-EWMA policy record_observation is a no-op, so its per-attribute
rates are not re-seeded (see the counterexample). -/
theorem c2_replay_reseeds_window_and_ewma (tr : List (Int × Cand))
    (s : WindowState) (e : EwmaState) :
    ((windowReplay s (windowLogOf s tr)).windowHelpful =
      (windowLiveRun s tr).windowHelpful) ∧
    ((ewmaReplay e (ewmaLogOf e tr)).pHat = (ewmaLiveRun e tr).pHat) ∧
    ((ewmaReplay e (ewmaLogOf e tr)).nObs = (ewmaLiveRun e tr).nObs) := by
  rw [windowReplay_eq_live, ewmaReplay_eq_live]
  exact ⟨rfl, rfl, rfl⟩

theorem filterMap_insertAt_none {α β : Type} (f : α → Option β) (x : α)
    (hx : f x = none) : ∀ (i : Nat) (l : List α),
    (insertAt i x l).filterMap f = l.filterMap f := by
  intro i l
  induction l generalizing i with
  | nil => cases i <;> simp [insertAt, hx]
  | cons y ys ih =>
    cases i with
    | zero => simp [insertAt, hx]
    | succ j =>
      simp only [insertAt]
      cases hfy : f y <;> simp [List.filterMap_cons, hfy, ih j]

/-- C8 (confirmed).  A line that is not valid JSON is skipped by the
reading loop of the function underscore-reconstruct-from-log, so inserting
a malformed line at any position of the log leaves the reconstruction
result — success or failure, and every field of the resume state —
unchanged. -/
theorem c8_malformed_line_ignored (text : String) (log : List LogLine) (i : Nat) :
    reconstructFromLog (insertAt i (LogLine.malformed text) log) =
      reconstructFromLog log := by
  unfold reconstructFromLog
  rw [filterMap_insertAt_none parseLine (LogLine.malformed text) rfl]

theorem findLastStart_append_one (l : List Rec) (r : Rec) :
    findLastStart (l ++ [r]) = flsStep (findLastStart l) r := by
  unfold findLastStart
  rw [List.foldl_append]
  rfl

theorem isStart_iff (r : Rec) :
    isStart r = true ↔ ∃ c cap, r = Rec.start c cap := by
  cases r <;> simp [isStart]

theorem flsStep_nonstart (acc : Option ((List (AttrId × Int) × Int) × List Rec))
    (r : Rec) (h : isStart r = false) :
    flsStep acc r = acc.map fun q => (q.1, q.2 ++ [r]) := by
  cases r <;> simp [isStart] at h ⊢ <;> cases acc <;> rfl

theorem findLastStart_none_iff (l : List Rec) :
    findLastStart l = none ↔ l.any isStart = false := by
  induction l using List.reverseRecOn with
  | nil => simp [findLastStart]
  | append_singleton l r ih =>
    rw [findLastStart_append_one]
    by_cases hr : isStart r = true
    · obtain ⟨c, cap, rfl⟩ := (isStart_iff r).mp hr
      simp [flsStep, isStart]
    · rw [flsStep_nonstart _ _ (by simpa using hr)]
      simp [List.any_append, ih, hr]

theorem afterLastStart_append_start (l : List Rec) (c : List (AttrId × Int))
    (cap : Int) : afterLastStart (l ++ [Rec.start c cap]) = [] := by
  simp [afterLastStart, isStart, List.takeWhile_cons]

theorem afterLastStart_append_nonstart (l : List Rec) (r : Rec)
    (h : isStart r = false) :
    afterLastStart (l ++ [r]) = afterLastStart l ++ [r] := by
  simp [afterLastStart, h, List.takeWhile_cons]

theorem findLastStart_of_hasStart (l : List Rec) (h : l.any isStart = true) :
    ∃ si, findLastStart l = some (si, afterLastStart l) := by
  induction l using List.reverseRecOn with
  | nil => simp at h
  | append_singleton l r ih =>
    rw [findLastStart_append_one]
    by_cases hr : isStart r = true
    · obtain ⟨c, cap, rfl⟩ := (isStart_iff r).mp hr
      exact ⟨(c, cap), by rw [afterLastStart_append_start]; rfl⟩
    · have hr' : isStart r = false := by simpa using hr
      have hl : l.any isStart = true := by
        rw [List.any_append] at h
        simpa [hr'] using h
      obtain ⟨si, hsi⟩ := ih hl
      refine ⟨si, ?_⟩
      rw [flsStep_nonstart _ _ hr', hsi, afterLastStart_append_nonstart l r hr']
      rfl

theorem getLast?_mem {α : Type} {l : List α} {a : α} (h : l.getLast? = some a) :
    a ∈ l := by
  have hmem : a ∈ l.getLast? := by simp [Option.mem_def, h]
  obtain ⟨hne, rfl⟩ := List.mem_getLast?_eq_getLast hmem
  exact List.getLast_mem hne

theorem isRequest_iff (r : Rec) :
    isRequest r = true ↔ ∃ si a acc, r = Rec.request si a acc := by
  cases r <;> simp [isRequest]

theorem isResponse_iff (r : Rec) :
    isResponse r = true ↔ ∃ n, r = Rec.response n := by
  cases r <;> simp [isResponse]

theorem scan_lastRequest (l : List Rec) (st : ScanSt) :
    (l.foldl scanStep st).lastRequest =
      (match (l.filter isRequest).getLast? with
        | some (Rec.request si a acc) => some (si, a, acc)
        | _ => st.lastRequest) := by
  induction l using List.reverseRecOn with
  | nil => rfl
  | append_singleton l r ih =>
    rw [List.foldl_append, List.filter_append]
    cases r
    case request si a acc =>
      simp [scanStep, isRequest, List.getLast?_concat]
    all_goals simp [scanStep, isRequest, ih]

theorem scan_lastResponse (l : List Rec) (st : ScanSt) :
    (l.foldl scanStep st).lastResponse =
      (match (l.filter isResponse).getLast? with
        | some r => some (respNext r)
        | none => st.lastResponse) := by
  induction l using List.reverseRecOn with
  | nil => rfl
  | append_singleton l r ih =>
    rw [List.foldl_append, List.filter_append]
    cases r
    case response n =>
      simp [scanStep, isResponse, List.getLast?_concat, respNext]
    all_goals simp [scanStep, isResponse, ih]

/-- C6 counterexample.  A log whose portion after its (unique) start record
consists of a response carrying next index 1 followed by a response with a
null next index, and no request record.  The portion does contain a
response record carrying a non-null next index, so the claim predicts
success, but reconstruction consults only the most recent response record
and raises. -/
theorem c6_counterexample :
    raisesError (reconstructFromLog
      [LogLine.record (Rec.start [("A", 2)] 1000),
       LogLine.record (Rec.response (some 1)),
       LogLine.record (Rec.response none)]) = true ∧
    (afterLastStart ([LogLine.record (Rec.start [("A", 2)] 1000),
       LogLine.record (Rec.response (some 1)),
       LogLine.record (Rec.response none)].filterMap parseLine)).any
      (fun r => (respNext r).isSome) = true ∧
    ([LogLine.record (Rec.start [("A", 2)] 1000),
       LogLine.record (Rec.response (some 1)),
       LogLine.record (Rec.response none)].filterMap parseLine).any isStart
      = true := by
  refine ⟨rfl, rfl, rfl⟩

/-- C6 (amended).  Reconstruction raises iff the log has no start record,
or the portion after the most recent start record contains no request
record and its most recent response record (if any) carries a null next
index; otherwise it returns a resume state (with next index and
previous-accept flag).  It is a pure function of the log, so the error
surfaces before any live call.  The claim's original wording — "nor a
response record carrying a non-null next index" anywhere in the portion —
is refuted by the counterexample, since only the most recent response is
consulted. -/
theorem c6_reconstruction_error_iff (log : List LogLine) :
    raisesError (reconstructFromLog log) = true ↔
      ((log.filterMap parseLine).any isStart = false ∨
        (((afterLastStart (log.filterMap parseLine)).filter isRequest = []) ∧
          ∀ r, ((afterLastStart (log.filterMap parseLine)).filter
              isResponse).getLast? = some r → respNext r = none)) := by
  unfold reconstructFromLog reconstructRecs
  by_cases hs : (log.filterMap parseLine).any isStart = true
  · obtain ⟨si, hfls⟩ := findLastStart_of_hasStart _ hs
    rw [hfls]
    simp only [scan_lastRequest, scan_lastResponse, hs]
    cases hresp : ((afterLastStart (log.filterMap parseLine)).filter
        isResponse).getLast? with
    | some r =>
      have hr : isResponse r = true :=
        (List.mem_filter.mp (getLast?_mem hresp)).2
      obtain ⟨n, rfl⟩ := (isResponse_iff r).mp hr
      cases n with
      | some k =>
        simp [raisesError, respNext]
      | none =>
        cases hreq : ((afterLastStart (log.filterMap parseLine)).filter
            isRequest).getLast? with
        | some q =>
          have hqmem := List.mem_filter.mp (getLast?_mem hreq)
          obtain ⟨si2, a2, acc2, rfl⟩ := (isRequest_iff q).mp hqmem.2
          simp [raisesError, respNext]
          exact ⟨_, hqmem.1, hqmem.2⟩
        | none =>
          have hfil : ((afterLastStart (log.filterMap parseLine)).filter
              isRequest) = [] := List.getLast?_eq_none_iff.mp hreq
          simp [raisesError, respNext, hfil]
    | none =>
      cases hreq : ((afterLastStart (log.filterMap parseLine)).filter
          isRequest).getLast? with
      | some q =>
        have hqmem := List.mem_filter.mp (getLast?_mem hreq)
        obtain ⟨si2, a2, acc2, rfl⟩ := (isRequest_iff q).mp hqmem.2
        simp [raisesError]
        exact ⟨_, hqmem.1, hqmem.2⟩
      | none =>
        have hfil : ((afterLastStart (log.filterMap parseLine)).filter
            isRequest) = [] := List.getLast?_eq_none_iff.mp hreq
        simp [raisesError, hfil]
  · have hs0 : (log.filterMap parseLine).any isStart = false := by
      simpa using hs
    rw [(findLastStart_none_iff _).mpr hs0]
    simp [raisesError, hs0]

end Berghain
